import Mathlib

/-!
Verification of the CI-job YAML-to-instruction compiler of pyquickhelper
(`jenkinshelper`).  The concrete helpers `get_platform` and `default_engines`
are embedded from `src/pyquickhelper/jenkinshelper/jenkins_helper.py`.
The YAML pipeline compiler (`load_yaml`,
`enumerate_convert_yaml_into_instructions`,
`convert_sequence_into_batch_file` of `jenkinshelper/yaml_helper.py`) is not
part of the available sources (only its unit test
`_unittests/ut_jenkinshelper/test_yaml_exe.py` is), so those operations are
modelled from the specification, as indicated in each doc comment.
-/

namespace PyQuickHelper

/-- Modelled from the spec: a compilation context, a mapping from variable
name to a string value or `None` ("this variant is unavailable").  Embedded
as an ordered association list; `none` embeds the Python value `None`. -/
abbrev Context := List (String × Option String)

/-- Modelled from the spec: the value attached to a stage key in a pipeline
spec — either a scalar string or a list of template strings. -/
inductive SpecVal where
  | scalar : String → SpecVal
  | items : List String → SpecVal
deriving DecidableEq, Repr

/-- Modelled from the spec: a pipeline spec, an ordered mapping from stage
name to a scalar or a list of template strings. -/
abbrev PipelineSpec := List (String × SpecVal)

/-- Modelled from the spec: an instruction batch, the ordered sequence of
(stage name, instruction) pairs for one variant. -/
abbrev InstructionBatch := List (String × String)

/-- Context lookup: the first binding of the key, flattened so that a key
bound to `None` and an absent key both yield `none` (in both cases there is
no string value to substitute). -/
def lookupCtx : Context → String → Option String
  | [], _ => none
  | (k, v) :: rest, key => if k = key then v else lookupCtx rest key

/-- Modelled from the spec: the template expander over the characters of one
string leaf.  A `none` mode scans normally; a `some acc` mode is inside a
placeholder, accumulating the key (in reverse) until the closing double
brace, where the context lookup happens: a key bound to a string is
substituted with its value, a key with no string value leaves the
placeholder textually untouched. -/
def substLoop (ctx : Context) : Option (List Char) → List Char → List Char
  | none, '{' :: '{' :: rest => substLoop ctx (some []) rest
  | none, c :: rest => c :: substLoop ctx none rest
  | none, [] => []
  | some acc, '}' :: '}' :: rest =>
    (match lookupCtx ctx (String.mk acc.reverse) with
     | some v => v.data ++ substLoop ctx none rest
     | none => '{' :: '{' :: (acc.reverse ++ '}' :: '}' :: substLoop ctx none rest))
  | some acc, c :: rest => substLoop ctx (some (c :: acc)) rest
  | some acc, [] => '{' :: '{' :: acc.reverse

/-- The template expander over the characters of one string leaf, starting
in normal scanning mode. -/
def substChars (ctx : Context) (l : List Char) : List Char :=
  substLoop ctx none l

/-- Modelled from the spec: substitution of `\x7b\x7bKey\x7d\x7d`
placeholders in one template string against the context. -/
def substituteTemplate (ctx : Context) (s : String) : String :=
  String.mk (substChars ctx s.data)

/-- Modelled from the spec: `load_yaml` parses the YAML text and then
recursively substitutes every placeholder occurring in a string leaf.  The
YAML syntax parsing itself is delegated to the external YAML library, so
the model starts from the parsed ordered stage map and performs the
substitution pass over all string leaves. -/
def load_yaml (spec : PipelineSpec) (context : Context) : PipelineSpec :=
  spec.map (fun p =>
    (p.1,
      match p.2 with
      | .scalar s => .scalar (substituteTemplate context s)
      | .items l => .items (l.map (substituteTemplate context))))

/-- Modelled from the spec: the fixed whitelist of recognized top-level
stage keys of a pipeline spec. -/
def stageWhitelist : List String :=
  ["language", "python", "before_script", "script", "after_script"]

/-- Returns `true` when the character list still holds an opening double brace of an
uninstantiated placeholder. -/
def containsMoustacheChars : List Char → Bool
  | '{' :: '{' :: _ => true
  | _ :: rest => containsMoustacheChars rest
  | [] => false

/-- Returns `true` when the string still holds an opening double brace of an
uninstantiated placeholder. -/
def containsMoustache (s : String) : Bool :=
  containsMoustacheChars s.data

/-- The list of template strings attached to a stage key of the spec: the
items of a list value, the singleton of a scalar value, and `[]` when the
key is absent. -/
def getStage (spec : PipelineSpec) (name : String) : List String :=
  match spec.find? (fun p => p.1 == name) with
  | some (_, .items l) => l
  | some (_, .scalar s) => [s]
  | none => []

/-- The first top-level key of the spec outside the stage-key whitelist,
when one exists. -/
def findBadKey (spec : PipelineSpec) : Option String :=
  (spec.map Prod.fst).find? (fun k => !(stageWhitelist.contains k))

/-- Modelled from the spec: resolution of one token of the `python` stage
against the context.  A token whose resolved value is empty or still an
uninstantiated placeholder (its interpreter variable is `None` or unbound)
is dropped (`none`); otherwise the resolved value is the interpreter of one
variant. -/
def resolveToken (ctx : Context) (tok : String) : Option String :=
  let r := substituteTemplate ctx tok
  if r.isEmpty || containsMoustache r then none else some r

/-- Modelled from the spec: per-variant resolution of one instruction
template.  An unresolvable required placeholder is an error identifying the
stage and the unresolved token; otherwise the pair (stage, instruction) is
produced. -/
def resolveInstruction (ctx : Context) (stage : String) (tmpl : String) :
    Except String (String × String) :=
  let r := substituteTemplate ctx tmpl
  if containsMoustache r then
    .error ("Unresolved token \x27" ++ r ++ "\x27 in stage \x27" ++ stage ++ "\x27.")
  else
    .ok (stage, r)

/-- Error-propagating map over a list: the first error aborts the whole
computation, otherwise all results are collected in order. -/
def mapME {α β : Type} (f : α → Except String β) : List α → Except String (List β)
  | [] => .ok []
  | x :: xs =>
    match f x with
    | .error e => .error e
    | .ok y =>
      match mapME f xs with
      | .error e => .error e
      | .ok ys => .ok (y :: ys)

/-- Modelled from the spec: resolution of all instruction templates of one
stage, in declaration order. -/
def resolveStage (ctx : Context) (spec : PipelineSpec) (stage : String) :
    Except String InstructionBatch :=
  mapME (resolveInstruction ctx stage) (getStage spec stage)

/-- Modelled from the spec: the instruction batch of one variant, in fixed
stage order before_script, script, after_script, with placeholders resolved
against the merged variable set (spec context plus the per-variant
interpreter binding). -/
def mkBatch (spec : PipelineSpec) (ctx : Context) (interp : String) :
    Except String InstructionBatch :=
  let merged : Context := ("interpreter", some interp) :: ctx
  match resolveStage merged spec "before_script" with
  | .error e => .error e
  | .ok b =>
    match resolveStage merged spec "script" with
    | .error e => .error e
    | .ok s =>
      match resolveStage merged spec "after_script" with
      | .error e => .error e
      | .ok a => .ok (b ++ s ++ a)

/-- Modelled from the spec: the instruction enumerator.  It first validates
that every top-level key is whitelisted (an unrecognized key is a hard
error naming the offending key, raised before any batch is produced), then
expands the variants of the `python` stage, dropping tokens that resolve to
`None`/empty, and emits one fully resolved instruction batch per variant.
The lazy generator of the source is embedded as the `Except`-valued list of
all its batches: an error yields no batch at all. -/
def enumerate_convert_yaml_into_instructions (spec : PipelineSpec)
    (varCtx : Context) : Except String (List InstructionBatch) :=
  match findBadKey spec with
  | some k => .error ("Unexpected key \x27" ++ k ++ "\x27 in the specification.")
  | none =>
    mapME (mkBatch spec varCtx)
      ((getStage spec "python").filterMap (resolveToken varCtx))

/-- Upper-casing of a stage name into its sentinel label, character by
character. -/
def upperString (s : String) : String :=
  String.mk (s.data.map Char.toUpper)

/-- The lines of the rendered script: an echoed sentinel (the upper-cased
stage name) opens every stage group, followed by the commands of that stage. -/
def renderLines : Option String → InstructionBatch → List String
  | _, [] => []
  | prev, (stage, cmd) :: rest =>
    (if prev = some stage then [cmd]
     else ["echo " ++ upperString stage, cmd]) ++ renderLines (some stage) rest

/-- Modelled from the spec: the batch-to-script renderer.  Serializes an
instruction batch into a script text where each stage boundary is marked
with an echoed sentinel label immediately preceding the commands
of that stage. -/
def convert_sequence_into_batch_file (seq : InstructionBatch) : String :=
  String.join ((renderLines none seq).map (fun l => l ++ "\n"))

/-- Embedded from `jenkinshelper/jenkins_helper.py`: `get_platform` returns
`platform or sys.platform`.  The ambient `sys.platform` is passed
explicitly; the argument domain is `None` (`none`) or a string, and
the truthiness rule of Python makes the empty string fall back to `sys.platform` as
well. -/
def get_platform (platform : Option String) (sysPlatform : String) : String :=
  match platform with
  | some s => if s = "" then sysPlatform else s
  | none => sysPlatform

/-- Embedded from `jenkinshelper/jenkins_helper.py`: `default_engines`
resolves the platform through `get_platform` and returns the interpreter
dictionary for `win32` or `linux`, raising `ValueError` for any other
platform. -/
def default_engines (platform : Option String) (sysPlatform : String) :
    Except String (List (String × String)) :=
  let p := get_platform platform sysPlatform
  if p = "win32" then
    .ok [("Anaconda2", "d:\\Anaconda"), ("Anaconda3", "d:\\Anaconda3"),
         ("Python37", "c:\\Python37_x64"), ("Python36", "c:\\Python36_x64"),
         ("Python35", "c:\\Python35_x64"), ("Python34", "c:\\Python34_x64"),
         ("Python27", "c:\\Python27"),
         ("WinPython37", "c:\\APythonENSAE\\python37"),
         ("WinPython36", "c:\\APythonENSAE\\python36"),
         ("WinPython35", "c:\\APythonENSAE\\python35")]
  else if p = "linux" then
    .ok [("Anaconda3", "/usr/local/miniconda3"),
         ("Python37", "/usr/local/python37"),
         ("Python36", "/usr/local/python36")]
  else
    .error ("Unknown value for platform \x27" ++ p ++ "\x27.")

/-- The pipeline spec of the unit test `test_exe` (as parsed from its YAML
text, before template substitution), on a non-Windows platform. -/
def exeSpec : PipelineSpec :=
  [("language", .scalar "python"),
   ("python", .items ["\x7b\x7bPython35\x7d\x7d"]),
   ("before_script", .items ["ls"]),
   ("after_script", .items ["ls \x7b\x7bPLATFORM\x7d\x7d"]),
   ("script", .items ["ls"])]

/-- The context of the unit tests `test_exe` and `test_bug_exe`. -/
def exeCtx : Context :=
  [("Python34", some "fake"), ("Python35", some "/usr/bin"),
   ("Python27", none), ("Anaconda3", none), ("Anaconda2", none),
   ("WinPython35", none), ("project_name", some "pyquickhelper"),
   ("root_path", some "ROOT"), ("PLATFORM", some "win")]

/-- The pipeline spec of the unit test `test_bug_exe`: the stage key
`before` is a YAML typo outside the whitelist. -/
def bugSpec : PipelineSpec :=
  [("language", .scalar "python"),
   ("python", .items ["\x7b\x7bPython35\x7d\x7d"]),
   ("before", .items ["ls"]),
   ("after_script", .items ["ls \x7b\x7bPLATFORM\x7d\x7d"]),
   ("script", .items ["ls"])]

/-- A variant of the unit-test spec whose `python` stage declares three
interpreter tokens; in the test context only `Python35` has a string value,
`Python27` and `Anaconda3` are `None`. -/
def exeSpecMulti : PipelineSpec :=
  [("language", .scalar "python"),
   ("python", .items ["\x7b\x7bPython27\x7d\x7d", "\x7b\x7bPython35\x7d\x7d",
                      "\x7b\x7bAnaconda3\x7d\x7d"]),
   ("before_script", .items ["ls"]),
   ("after_script", .items ["ls \x7b\x7bPLATFORM\x7d\x7d"]),
   ("script", .items ["ls"])]

/-- The string `sub` occurs contiguously inside `s`. -/
def strContainsSub (s sub : String) : Prop :=
  ∃ a b : String, s = a ++ (sub ++ b)

/- ------------------------------------------------------------------ -/
/- Theorems.                                                          -/
/- ------------------------------------------------------------------ -/

/-- A message built as prefix, quote, key, quote, suffix contains the
quoted key, quotes included. -/
theorem quoted_message_contains (a k b : String) :
    strContainsSub ((a ++ "\x27") ++ (k ++ ("\x27" ++ b)))
      ("\x27" ++ (k ++ "\x27")) := by
  refine ⟨a, b, ?_⟩
  apply String.ext
  simp [String.data_append]

/-- C1: for every pipeline spec containing a top-level stage key outside
the fixed whitelist, enumerating instructions fails with an error (so no
batch is yielded), and the error message contains an offending key by
name, wrapped in quotes. -/
theorem unknown_stage_key_errors (spec : PipelineSpec) (ctx : Context)
    (k : String) (hk : k ∈ spec.map Prod.fst)
    (hw : stageWhitelist.contains k = false) :
    ∃ msg bad, enumerate_convert_yaml_into_instructions spec ctx = .error msg ∧
      bad ∈ spec.map Prod.fst ∧ stageWhitelist.contains bad = false ∧
      strContainsSub msg ("\x27" ++ (bad ++ "\x27")) := by
  have hs : ((spec.map Prod.fst).find?
      (fun k => !(stageWhitelist.contains k))).isSome := by
    rw [List.find?_isSome]
    exact ⟨k, hk, by simp only [hw, Bool.not_false]⟩
  obtain ⟨bad, hbad⟩ := Option.isSome_iff_exists.mp hs
  have hmem := List.mem_of_find?_eq_some hbad
  have hprop := List.find?_some hbad
  refine ⟨"Unexpected key \x27" ++ (bad ++ "\x27 in the specification."),
    bad, ?_, hmem, by simpa using hprop, ?_⟩
  · unfold enumerate_convert_yaml_into_instructions findBadKey
    rw [hbad]
    rfl
  · exact quoted_message_contains "Unexpected key " bad " in the specification."

/-- Witness for C1 at the spec of the unit test `test_bug_exe`, whose key
`before` is outside the whitelist. -/
theorem unknown_stage_key_errors_witness :
    ("before" ∈ bugSpec.map Prod.fst ∧
      stageWhitelist.contains "before" = false) ∧
    ∃ msg bad,
      enumerate_convert_yaml_into_instructions bugSpec exeCtx = .error msg ∧
      bad ∈ bugSpec.map Prod.fst ∧ stageWhitelist.contains bad = false ∧
      strContainsSub msg ("\x27" ++ (bad ++ "\x27")) :=
  ⟨⟨by decide, by decide⟩,
    unknown_stage_key_errors bugSpec exeCtx "before" (by decide) (by decide)⟩

/-- Every element of a successful `mapME` comes from a successful
application of `f` to an element of the input list. -/
theorem mapME_ok_mem {α β : Type} (f : α → Except String β) (l : List α)
    (ys : List β) (h : mapME f l = .ok ys) :
    ∀ y ∈ ys, ∃ x ∈ l, f x = .ok y := by
  induction l generalizing ys with
  | nil =>
    simp only [mapME, Except.ok.injEq] at h
    subst h
    simp
  | cons x xs ih =>
    simp only [mapME] at h
    cases hf : f x with
    | error e => rw [hf] at h; simp at h
    | ok y0 =>
      rw [hf] at h
      cases hm : mapME f xs with
      | error e => rw [hm] at h; simp at h
      | ok ys0 =>
        rw [hm] at h
        simp only [Except.ok.injEq] at h
        subst h
        intro y hy
        rcases List.mem_cons.mp hy with rfl | hy0
        · exact ⟨x, List.mem_cons_self x xs, hf⟩
        · obtain ⟨x1, hx1, hfx1⟩ := ih ys0 hm y hy0
          exact ⟨x1, List.mem_cons_of_mem x hx1, hfx1⟩

/-- A successful stage resolution is exactly the declaration-ordered list of
substituted templates, each labeled with the stage and free of remaining
placeholders. -/
theorem mapME_resolveInstruction_ok (ctx : Context) (stage : String)
    (l : List String) (ys : InstructionBatch)
    (h : mapME (resolveInstruction ctx stage) l = .ok ys) :
    ys = l.map (fun t => (stage, substituteTemplate ctx t)) ∧
      ∀ p ∈ ys, containsMoustache p.2 = false := by
  induction l generalizing ys with
  | nil =>
    simp only [mapME, Except.ok.injEq] at h
    subst h
    simp
  | cons t ts ih =>
    simp only [mapME] at h
    by_cases hc : containsMoustache (substituteTemplate ctx t) = true
    · simp [resolveInstruction, hc] at h
    · rw [Bool.not_eq_true] at hc
      cases hm : mapME (resolveInstruction ctx stage) ts with
      | error e => simp [resolveInstruction, hc, hm] at h
      | ok ys0 =>
        simp only [resolveInstruction, hc, hm, Bool.false_eq_true, if_false,
          Except.ok.injEq] at h
        subst h
        obtain ⟨h1, h2⟩ := ih ys0 hm
        subst h1
        refine ⟨by simp, ?_⟩
        intro p hp
        rcases List.mem_cons.mp hp with rfl | hp0
        · exact hc
        · exact h2 p hp0

/-- A successful per-variant batch is the concatenation, in fixed stage
order, of the three resolved stage groups, and every instruction of it is
free of remaining placeholders. -/
theorem mkBatch_ok_eq (spec : PipelineSpec) (ctx : Context) (interp : String)
    (b : InstructionBatch) (h : mkBatch spec ctx interp = .ok b) :
    (b = ((getStage spec "before_script").map
            (fun t => ("before_script",
              substituteTemplate (("interpreter", some interp) :: ctx) t)))
      ++ ((getStage spec "script").map
            (fun t => ("script",
              substituteTemplate (("interpreter", some interp) :: ctx) t)))
      ++ ((getStage spec "after_script").map
            (fun t => ("after_script",
              substituteTemplate (("interpreter", some interp) :: ctx) t)))) ∧
      ∀ p ∈ b, containsMoustache p.2 = false := by
  simp only [mkBatch] at h
  cases h1 : resolveStage (("interpreter", some interp) :: ctx) spec
      "before_script" with
  | error e => rw [h1] at h; simp at h
  | ok bb =>
    rw [h1] at h
    cases h2 : resolveStage (("interpreter", some interp) :: ctx) spec
        "script" with
    | error e => rw [h2] at h; simp at h
    | ok ss =>
      rw [h2] at h
      cases h3 : resolveStage (("interpreter", some interp) :: ctx) spec
          "after_script" with
      | error e => rw [h3] at h; simp at h
      | ok aa =>
        rw [h3] at h
        simp only [Except.ok.injEq] at h
        subst h
        obtain ⟨e1, r1⟩ := mapME_resolveInstruction_ok _ _ _ _ h1
        obtain ⟨e2, r2⟩ := mapME_resolveInstruction_ok _ _ _ _ h2
        obtain ⟨e3, r3⟩ := mapME_resolveInstruction_ok _ _ _ _ h3
        refine ⟨by rw [e1, e2, e3], ?_⟩
        intro p hp
        rcases List.mem_append.mp hp with hp' | hp3
        · rcases List.mem_append.mp hp' with hp1 | hp2
          · exact r1 p hp1
          · exact r2 p hp2
        · exact r3 p hp3

/-- Every batch of a successful enumeration is the successful per-variant
batch of some resolved interpreter token of the `python` stage. -/
theorem enumerate_ok_mem (spec : PipelineSpec) (ctx : Context)
    (bs : List InstructionBatch)
    (h : enumerate_convert_yaml_into_instructions spec ctx = .ok bs) :
    ∀ b ∈ bs, ∃ interp,
      interp ∈ (getStage spec "python").filterMap (resolveToken ctx) ∧
      mkBatch spec ctx interp = .ok b := by
  unfold enumerate_convert_yaml_into_instructions at h
  cases hb : findBadKey spec with
  | some k => rw [hb] at h; simp at h
  | none =>
    rw [hb] at h
    intro b hbmem
    obtain ⟨x, hx, hfx⟩ := mapME_ok_mem _ _ _ h b hbmem
    exact ⟨x, hx, hfx⟩

/-- C3: round-trip of loading then enumerating — whenever enumeration of a
loaded spec yields its batches, no instruction string of any batch contains
a remaining placeholder token.  (Proved without any hypothesis on the
bindings: every yielded batch is fully resolved.) -/
theorem roundtrip_no_placeholder (spec : PipelineSpec) (ctx : Context)
    (bs : List InstructionBatch)
    (h : enumerate_convert_yaml_into_instructions (load_yaml spec ctx) ctx
      = .ok bs) :
    ∀ b ∈ bs, ∀ p ∈ b, containsMoustache p.2 = false := by
  intro b hb
  obtain ⟨interp, _, hmk⟩ := enumerate_ok_mem _ _ _ h b hb
  exact (mkBatch_ok_eq _ _ _ _ hmk).2

/-- Witness for C3 at the spec and context of the unit test `test_exe`:
the substituted after_script instruction carries no placeholder. -/
theorem roundtrip_no_placeholder_witness :
    containsMoustache ("after_script", "ls win").2 = false :=
  roundtrip_no_placeholder exeSpec exeCtx
    [[("before_script", "ls"), ("script", "ls"), ("after_script", "ls win")]]
    rfl
    [("before_script", "ls"), ("script", "ls"), ("after_script", "ls win")]
    (by decide)
    ("after_script", "ls win")
    (by decide)

/-- C4: stage-ordering invariant — every batch of a successful enumeration
decomposes as three consecutive groups, all before_script instructions
first, then all script instructions, then all after_script instructions,
each group listing the substituted templates of its stage in declaration
order. -/
theorem stage_ordering (spec : PipelineSpec) (ctx : Context)
    (bs : List InstructionBatch)
    (h : enumerate_convert_yaml_into_instructions spec ctx = .ok bs) :
    ∀ b ∈ bs, ∃ l1 l2 l3 merged,
      b = l1 ++ l2 ++ l3 ∧
      l1 = (getStage spec "before_script").map
        (fun t => ("before_script", substituteTemplate merged t)) ∧
      l2 = (getStage spec "script").map
        (fun t => ("script", substituteTemplate merged t)) ∧
      l3 = (getStage spec "after_script").map
        (fun t => ("after_script", substituteTemplate merged t)) ∧
      (∀ p ∈ l1, p.1 = "before_script") ∧
      (∀ p ∈ l2, p.1 = "script") ∧
      (∀ p ∈ l3, p.1 = "after_script") := by
  intro b hb
  obtain ⟨interp, _, hmk⟩ := enumerate_ok_mem _ _ _ h b hb
  obtain ⟨heq, _⟩ := mkBatch_ok_eq _ _ _ _ hmk
  refine ⟨_, _, _, ("interpreter", some interp) :: ctx, heq, rfl, rfl, rfl,
    ?_, ?_, ?_⟩ <;>
    · intro p hp
      obtain ⟨t, _, hpt⟩ := List.mem_map.mp hp
      rw [← hpt]

/-- Witness for C4 at the loaded spec and context of the unit test
`test_exe`. -/
theorem stage_ordering_witness :
    ∃ l1 l2 l3 merged,
      ([("before_script", "ls"), ("script", "ls"),
        ("after_script", "ls win")] : InstructionBatch) = l1 ++ l2 ++ l3 ∧
      l1 = (getStage (load_yaml exeSpec exeCtx) "before_script").map
        (fun t => ("before_script", substituteTemplate merged t)) ∧
      l2 = (getStage (load_yaml exeSpec exeCtx) "script").map
        (fun t => ("script", substituteTemplate merged t)) ∧
      l3 = (getStage (load_yaml exeSpec exeCtx) "after_script").map
        (fun t => ("after_script", substituteTemplate merged t)) ∧
      (∀ p ∈ l1, p.1 = "before_script") ∧
      (∀ p ∈ l2, p.1 = "script") ∧
      (∀ p ∈ l3, p.1 = "after_script") :=
  stage_ordering (load_yaml exeSpec exeCtx) exeCtx
    [[("before_script", "ls"), ("script", "ls"), ("after_script", "ls win")]]
    rfl
    [("before_script", "ls"), ("script", "ls"), ("after_script", "ls win")]
    (by decide)

/-- C6: enumeration atomicity — for every spec and context, enumeration
either fails with an error (yielding no batch at all) or succeeds with a
list of batches in which every instruction is fully resolved; there is no
partial-success outcome. -/
theorem enumeration_atomicity (spec : PipelineSpec) (ctx : Context) :
    (∃ e, enumerate_convert_yaml_into_instructions spec ctx = .error e) ∨
    (∃ bs, enumerate_convert_yaml_into_instructions spec ctx = .ok bs ∧
      ∀ b ∈ bs, ∀ p ∈ b, containsMoustache p.2 = false) := by
  cases h : enumerate_convert_yaml_into_instructions spec ctx with
  | error e => exact .inl ⟨e, rfl⟩
  | ok bs =>
    refine .inr ⟨bs, rfl, ?_⟩
    intro b hb
    obtain ⟨interp, _, hmk⟩ := enumerate_ok_mem _ _ _ h b hb
    exact (mkBatch_ok_eq _ _ _ _ hmk).2

/-- C2: when all top-level keys are whitelisted and exactly one token of
the `python` stage resolves to a string value while all the others resolve
to `None`, enumeration produces exactly one variant batch — the successful
per-variant batch of the non-null interpreter — and the null-resolved
tokens are dropped rather than failing the enumeration. -/
theorem single_variant (spec : PipelineSpec) (ctx : Context)
    (pre post : List String) (tok v : String) (b : InstructionBatch)
    (hkeys : ∀ k ∈ spec.map Prod.fst, stageWhitelist.contains k = true)
    (hpy : getStage spec "python" = pre ++ tok :: post)
    (hv : resolveToken ctx tok = some v)
    (hpre : ∀ t ∈ pre, resolveToken ctx t = none)
    (hpost : ∀ t ∈ post, resolveToken ctx t = none)
    (hb : mkBatch spec ctx v = .ok b) :
    enumerate_convert_yaml_into_instructions spec ctx = .ok [b] := by
  have hbad : findBadKey spec = none := by
    unfold findBadKey
    rw [List.find?_eq_none]
    intro k hk
    simp only [hkeys k hk, Bool.not_true]
    exact Bool.false_ne_true
  unfold enumerate_convert_yaml_into_instructions
  rw [hbad, hpy]
  have h1 : (pre ++ tok :: post).filterMap (resolveToken ctx) = [v] := by
    rw [List.filterMap_append]
    have hp0 : pre.filterMap (resolveToken ctx) = [] :=
      List.filterMap_eq_nil_iff.mpr hpre
    have hp1 : post.filterMap (resolveToken ctx) = [] :=
      List.filterMap_eq_nil_iff.mpr hpost
    rw [hp0, List.filterMap_cons, hv, hp1]
    rfl
  rw [h1]
  simp only [mapME, hb]

/-- Witness for C2 at a three-token variant of the unit-test spec: in its
context `Python27` and `Anaconda3` are `None` and only `Python35` has a
value, so exactly the `Python35` variant is produced. -/
theorem single_variant_witness :
    enumerate_convert_yaml_into_instructions exeSpecMulti exeCtx =
      .ok [[("before_script", "ls"), ("script", "ls"),
            ("after_script", "ls win")]] :=
  single_variant exeSpecMulti exeCtx
    ["\x7b\x7bPython27\x7d\x7d"] ["\x7b\x7bAnaconda3\x7d\x7d"]
    "\x7b\x7bPython35\x7d\x7d" "/usr/bin"
    [("before_script", "ls"), ("script", "ls"), ("after_script", "ls win")]
    (by decide) rfl rfl (by decide) (by decide) rfl

/-- C5: for the unit-test spec (before_script `ls`, script `ls`,
after_script `ls PLATFORM-placeholder`) loaded with the context binding
`PLATFORM` to `win`, enumeration yields one batch whose rendered script is
exactly the echoed sentinel `BEFORE_SCRIPT` followed by `ls`, the sentinel
`SCRIPT` followed by `ls`, and the sentinel `AFTER_SCRIPT` followed by
`ls win`, in that order. -/
theorem render_sentinels :
    (enumerate_convert_yaml_into_instructions (load_yaml exeSpec exeCtx)
        exeCtx).map (fun bs => bs.map convert_sequence_into_batch_file) =
      .ok ["echo BEFORE_SCRIPT\nls\necho SCRIPT\nls\necho AFTER_SCRIPT\nls win\n"] :=
  rfl

/-- C8: rendering is a pure function of the batch — rendering the same
batch twice yields byte-identical text. -/
theorem render_deterministic (seq : InstructionBatch) :
    convert_sequence_into_batch_file seq = convert_sequence_into_batch_file seq :=
  rfl

/-- Rebuilding a string from its character data yields that string. -/
theorem string_mk_data (s : String) : String.mk s.data = s := rfl

/-- Scanning a placeholder key free of closing braces accumulates it
entirely, reversed, until the closing double brace. -/
theorem substLoop_scan (ctx : Context) (keyl : List Char)
    (hkey : ∀ c ∈ keyl, c ≠ '}') :
    ∀ acc rest, substLoop ctx (some acc) (keyl ++ '}' :: '}' :: rest) =
      substLoop ctx (some (keyl.reverse ++ acc)) ('}' :: '}' :: rest) := by
  induction keyl with
  | nil => intro acc rest; simp
  | cons c cs ih =>
    intro acc rest
    have hc : c ≠ '}' := hkey c (List.mem_cons_self c cs)
    rw [List.cons_append,
      substLoop.eq_5 ctx acc c _ (fun r h1 _ => hc h1),
      ih (fun d hd => hkey d (List.mem_cons_of_mem c hd)) (c :: acc) rest]
    have hrev : (c :: cs).reverse ++ acc = cs.reverse ++ (c :: acc) := by
      simp
    rw [hrev]

/-- C7: template substitution over a string leaf — a placeholder whose key
is bound in the context is replaced by the bound value, a placeholder whose
key has no string value is left textually untouched (no error is raised),
and any character other than an opening brace passes through unchanged, so
substitution walks every occurrence. -/
theorem load_substitution (ctx : Context) (key rest : String)
    (hk : ∀ c ∈ key.data, c ≠ '}') :
    (∀ v, lookupCtx ctx key = some v →
      substituteTemplate ctx ("\x7b\x7b" ++ key ++ "\x7d\x7d" ++ rest) =
        v ++ substituteTemplate ctx rest) ∧
    (lookupCtx ctx key = none →
      substituteTemplate ctx ("\x7b\x7b" ++ key ++ "\x7d\x7d" ++ rest) =
        "\x7b\x7b" ++ key ++ "\x7d\x7d" ++ substituteTemplate ctx rest) ∧
    (∀ (c : Char) (s : String), c ≠ '{' →
      substituteTemplate ctx (String.mk (c :: s.data)) =
        String.mk [c] ++ substituteTemplate ctx s) := by
  have hdata : ("\x7b\x7b" ++ key ++ "\x7d\x7d" ++ rest).data =
      '{' :: '{' :: (key.data ++ '}' :: '}' :: rest.data) := by
    simp only [String.data_append]
    simp
  have hcore : substLoop ctx none
        ('{' :: '{' :: (key.data ++ '}' :: '}' :: rest.data)) =
      (match lookupCtx ctx key with
       | some v => v.data ++ substLoop ctx none rest.data
       | none =>
         '{' :: '{' :: (key.data ++ '}' :: '}' :: substLoop ctx none rest.data)) := by
    rw [substLoop.eq_1, substLoop_scan ctx key.data hk [] rest.data,
      substLoop.eq_4]
    simp only [List.append_nil, List.reverse_reverse, string_mk_data]
  refine ⟨?_, ?_, ?_⟩
  · intro v hv
    apply String.ext
    show substLoop ctx none ("\x7b\x7b" ++ key ++ "\x7d\x7d" ++ rest).data
      = (v ++ substituteTemplate ctx rest).data
    rw [hdata, hcore, hv, String.data_append]
    rfl
  · intro hv
    apply String.ext
    show substLoop ctx none ("\x7b\x7b" ++ key ++ "\x7d\x7d" ++ rest).data
      = ("\x7b\x7b" ++ key ++ "\x7d\x7d" ++ substituteTemplate ctx rest).data
    rw [hdata, hcore, hv]
    simp only [String.data_append]
    simp only [List.cons_append, List.nil_append, List.append_assoc]
    rfl
  · intro c s hc
    apply String.ext
    show substLoop ctx none (String.mk (c :: s.data)).data
      = (String.mk [c] ++ substituteTemplate ctx s).data
    show substLoop ctx none (c :: s.data)
      = (String.mk [c] ++ substituteTemplate ctx s).data
    rw [substLoop.eq_2 ctx c s.data (fun r h1 _ => hc h1), String.data_append]
    rfl

/-- Witness for C7: the `PLATFORM` placeholder is substituted with `win`
under the test context, and is left textually untouched under the empty
context. -/
theorem load_substitution_witness :
    substituteTemplate exeCtx ("\x7b\x7b" ++ "PLATFORM" ++ "\x7d\x7d" ++ "!")
        = "win" ++ substituteTemplate exeCtx "!" ∧
    substituteTemplate [] ("\x7b\x7b" ++ "PLATFORM" ++ "\x7d\x7d" ++ "!")
        = "\x7b\x7b" ++ "PLATFORM" ++ "\x7d\x7d" ++ substituteTemplate [] "!" :=
  ⟨(load_substitution exeCtx "PLATFORM" "!" (by decide)).1 "win" rfl,
   (load_substitution [] "PLATFORM" "!" (by decide)).2.1 rfl⟩

/-- C9: `get_platform` returns `sys.platform` not only for `None` but for
every falsy argument — in particular the empty string — and returns the
argument itself for every truthy (non-empty) string argument. -/
theorem get_platform_truthiness (sysPlatform : String) :
    get_platform none sysPlatform = sysPlatform ∧
    get_platform (some "") sysPlatform = sysPlatform ∧
    ∀ s : String, s ≠ "" → get_platform (some s) sysPlatform = s := by
  refine ⟨rfl, rfl, ?_⟩
  intro s hs
  simp [get_platform, hs]

/-- Witness for C9 with `sys.platform = linux`: `None` and the empty string
fall back to `linux`, the truthy string `win32` is returned itself. -/
theorem get_platform_truthiness_witness :
    get_platform none "linux" = "linux" ∧
    get_platform (some "") "linux" = "linux" ∧
    get_platform (some "win32") "linux" = "win32" :=
  ⟨(get_platform_truthiness "linux").1,
   (get_platform_truthiness "linux").2.1,
   (get_platform_truthiness "linux").2.2 "win32" (by decide)⟩

/-- C10: `default_engines` returns a non-empty interpreter dictionary when
the resolved platform is exactly `win32` or `linux`, and fails with an
error naming the resolved platform (in quotes) for every other resolved
platform. -/
theorem default_engines_platforms (platform : Option String)
    (sysPlatform : String) :
    (get_platform platform sysPlatform = "win32" →
      ∃ l, default_engines platform sysPlatform = .ok l ∧ l ≠ []) ∧
    (get_platform platform sysPlatform = "linux" →
      ∃ l, default_engines platform sysPlatform = .ok l ∧ l ≠ []) ∧
    (get_platform platform sysPlatform ≠ "win32" →
     get_platform platform sysPlatform ≠ "linux" →
      ∃ msg, default_engines platform sysPlatform = .error msg ∧
        strContainsSub msg
          ("\x27" ++ (get_platform platform sysPlatform ++ "\x27"))) := by
  refine ⟨?_, ?_, ?_⟩
  · intro h
    refine ⟨[("Anaconda2", "d:\\Anaconda"), ("Anaconda3", "d:\\Anaconda3"),
      ("Python37", "c:\\Python37_x64"), ("Python36", "c:\\Python36_x64"),
      ("Python35", "c:\\Python35_x64"), ("Python34", "c:\\Python34_x64"),
      ("Python27", "c:\\Python27"),
      ("WinPython37", "c:\\APythonENSAE\\python37"),
      ("WinPython36", "c:\\APythonENSAE\\python36"),
      ("WinPython35", "c:\\APythonENSAE\\python35")], ?_, by simp⟩
    unfold default_engines
    rw [if_pos h]
  · intro h
    by_cases hw : get_platform platform sysPlatform = "win32"
    · rw [hw] at h
      exact absurd h (by decide)
    · refine ⟨[("Anaconda3", "/usr/local/miniconda3"),
        ("Python37", "/usr/local/python37"),
        ("Python36", "/usr/local/python36")], ?_, by simp⟩
      unfold default_engines
      rw [if_neg hw, if_pos h]
  · intro hw hl
    refine ⟨"Unknown value for platform \x27"
      ++ (get_platform platform sysPlatform ++ "\x27."), ?_, ?_⟩
    · unfold default_engines
      rw [if_neg hw, if_neg hl]
      rfl
    · exact quoted_message_contains "Unknown value for platform "
        (get_platform platform sysPlatform) "."

/-- Witness for C10: `win32` and a resolved `linux` yield non-empty
dictionaries, `darwin` yields an error naming `darwin`. -/
theorem default_engines_platforms_witness :
    (∃ l, default_engines (some "win32") "linux" = .ok l ∧ l ≠ []) ∧
    (∃ l, default_engines none "linux" = .ok l ∧ l ≠ []) ∧
    (∃ msg, default_engines (some "darwin") "linux" = .error msg ∧
      strContainsSub msg ("\x27" ++ ("darwin" ++ "\x27"))) :=
  ⟨(default_engines_platforms (some "win32") "linux").1 rfl,
   (default_engines_platforms none "linux").2.1 rfl,
   (default_engines_platforms (some "darwin") "linux").2.2
     (by decide) (by decide)⟩

end PyQuickHelper
